import Mathlib

/-!
A shallow embedding of the annotation and zoom facade of the peaks.js
source (src/main.js): the zoom state machine exposed through the zoom
property, the segments and points removal operations, the batch add
calling conventions, and the validation logic of Peaks.init.

JavaScript numbers that carry times and ids are modelled as rationals
and integers respectively; JS runtime values that the facade inspects
by type are modelled by the JSVal inductive.  The collection code that
lives outside src (waveform.segments / waveform.points) is modelled
from the spec where noted.
-/

namespace Peaks

/-- JavaScript runtime values, as far as the facade inspects them:
numbers (modelled as rationals, without NaN), strings, booleans, null,
undefined, functions (opaque), plain objects (association lists of
fields), arrays, and DOM elements carrying whether they are an
HTMLMediaElement and their clientWidth. -/
inductive JSVal : Type where
  | num : ℚ → JSVal
  | str : String → JSVal
  | boolean : Bool → JSVal
  | null : JSVal
  | undef : JSVal
  | fn : JSVal
  | obj : List (String × JSVal) → JSVal
  | arr : List JSVal → JSVal
  | elem : Bool → Int → JSVal

/-- JS truthiness of a value. -/
def truthy : JSVal → Bool
  | JSVal.num q => decide (q ≠ 0)
  | JSVal.str s => decide (s ≠ "")
  | JSVal.boolean b => b
  | JSVal.null => false
  | JSVal.undef => false
  | JSVal.fn => true
  | JSVal.obj _ => true
  | JSVal.arr _ => true
  | JSVal.elem _ _ => true

/-- The JS test that a value is a number. -/
def isNumber : JSVal → Bool
  | JSVal.num _ => true
  | _ => false

/-- The JS test that a value is a function. -/
def isFunction : JSVal → Bool
  | JSVal.fn => true
  | _ => false

/-- The JS test that a value is an instance of HTMLMediaElement. -/
def isMediaElement : JSVal → Bool
  | JSVal.elem m _ => m
  | _ => false

/-- The JS test used by Peaks.init on a container: the expression
container.clientWidth is larger than zero; reading clientWidth off a
value that is not a DOM element yields undefined, and a comparison
with undefined is false. -/
def clientWidthPositive : JSVal → Bool
  | JSVal.elem _ w => decide (0 < w)
  | _ => false

/-- The JS test used on a template value: a string or a DOM element is
accepted, anything else is rejected. -/
def templateAcceptable : JSVal → Bool
  | JSVal.str _ => true
  | JSVal.elem _ _ => true
  | _ => false

/-- JS access to a positional argument: arguments beyond the supplied
list read as undefined. -/
def jsArg (args : List JSVal) (i : Nat) : JSVal :=
  args.getD i JSVal.undef

/-! ## The zoom state machine (the zoom property of src/main.js) -/

/-- Zoom state: the configured scale factors and the current index. -/
structure ZoomState where
  zoomLevels : List Int
  currentZoomLevel : Int
deriving DecidableEq

/-- One emitted zoom.update event: the topic together with the new and
previous scale-factor payloads.  A payload is none when the JS array
lookup zoomLevels[i] yields undefined. -/
structure ZoomUpdate where
  topic : String
  newScale : Option Int
  prevScale : Option Int
deriving DecidableEq

/-- JS array indexing zoomLevels[i]: undefined (none) for negative or
out-of-range indices. -/
def lookupLevel (levels : List Int) (i : Int) : Option Int :=
  if 0 ≤ i then levels[i.toNat]? else none

/-- setZoom from src/main.js: first clamp the requested index against
the upper bound, then against 0, record the previous index, update
currentZoomLevel and emit exactly one zoom.update event carrying the
new and previous scale factors. -/
def setZoom (s : ZoomState) (zoomLevelIndex : Int) : ZoomState × List ZoomUpdate :=
  let len : Int := s.zoomLevels.length
  let i1 : Int := if zoomLevelIndex ≥ len then len - 1 else zoomLevelIndex
  let i2 : Int := if i1 < 0 then 0 else i1
  ({ zoomLevels := s.zoomLevels, currentZoomLevel := i2 },
   [{ topic := "zoom.update",
      newScale := lookupLevel s.zoomLevels i2,
      prevScale := lookupLevel s.zoomLevels s.currentZoomLevel }])

/-- getZoom from src/main.js: returns the current index. -/
def getZoom (s : ZoomState) : Int :=
  s.currentZoomLevel

/-- zoomIn from src/main.js: setZoom at the current index minus one. -/
def zoomIn (s : ZoomState) : ZoomState × List ZoomUpdate :=
  setZoom s (s.currentZoomLevel - 1)

/-- zoomOut from src/main.js: setZoom at the current index plus one. -/
def zoomOut (s : ZoomState) : ZoomState × List ZoomUpdate :=
  setZoom s (s.currentZoomLevel + 1)

/-- overview (zoomToOverview) from src/main.js: emit one zoom.update
whose new scale is the overview scale obtained from the waveform data
collaborator and whose previous scale is the current zoomLevels entry;
the state is not changed. -/
def zoomToOverview (s : ZoomState) (overviewScale : Int) : ZoomState × List ZoomUpdate :=
  (s, [{ topic := "zoom.update",
         newScale := some overviewScale,
         prevScale := lookupLevel s.zoomLevels s.currentZoomLevel }])

/-- reset (resetOverview) from src/main.js: emit one zoom.update whose
new scale is the current zoomLevels entry and whose previous scale is
the overview scale; the state is not changed. -/
def resetOverview (s : ZoomState) (overviewScale : Int) : ZoomState × List ZoomUpdate :=
  (s, [{ topic := "zoom.update",
         newScale := lookupLevel s.zoomLevels s.currentZoomLevel,
         prevScale := some overviewScale }])

/-- A zoom operation of the public surface. -/
inductive ZoomOp : Type where
  | set : Int → ZoomOp
  | zin : ZoomOp
  | zout : ZoomOp

/-- Apply one zoom operation to the state (events discarded). -/
def applyOp (s : ZoomState) : ZoomOp → ZoomState
  | ZoomOp.set i => (setZoom s i).1
  | ZoomOp.zin => (zoomIn s).1
  | ZoomOp.zout => (zoomOut s).1

/-- Apply a sequence of zoom operations to the state. -/
def applyOps (s : ZoomState) : List ZoomOp → ZoomState
  | [] => s
  | op :: ops => applyOps (applyOp s op) ops

/-- Iterate zoomIn a given number of times. -/
def zoomInIter : Nat → ZoomState → ZoomState
  | 0, s => s
  | n + 1, s => zoomInIter n (zoomIn s).1

/-- The zoom invariant: the current index lies inside the configured
list of zoom levels. -/
def ZoomValid (s : ZoomState) : Prop :=
  0 ≤ s.currentZoomLevel ∧ s.currentZoomLevel < (s.zoomLevels.length : Int)

/-- The clamp described by the spec: the requested index clamped into
the closed range from 0 to len - 1. -/
def specClamp (len i : Int) : Int :=
  max 0 (min i (len - 1))

/-! ## Annotation records and removal (segments and points APIs) -/

/-- The time interval data of a segment. -/
structure SegTimes where
  startTime : ℚ
  endTime : ℚ
deriving DecidableEq

/-- The instant data of a point. -/
structure PtTime where
  timestamp : ℚ
deriving DecidableEq

/-- A stored annotation record; ref is the object reference identity
(two stored records are the same JS object exactly when their refs
coincide), id the user-visible identifier, data the time payload. -/
structure Record (α : Type) where
  ref : Nat
  id : Int
  data : α
deriving DecidableEq

/-- A stored segment record. -/
abbrev Segment := Record SegTimes

/-- A stored point record. -/
abbrev Point := Record PtTime

/-- The error kinds the facade surfaces for removal. -/
inductive PeaksError : Type where
  | rangeError : PeaksError
deriving DecidableEq

/-- Index of the first list entry satisfying a predicate. -/
def findIdxAux {α : Type} (p : α → Bool) : List α → Option Nat
  | [] => none
  | r :: rest => if p r then some 0 else (findIdxAux p rest).map (· + 1)

/-- JS splice(i, 1) followed by pop(): the element at index i together
with the list without it, or none when the index is out of range. -/
def spliceOne {α : Type} : List α → Nat → Option (α × List α)
  | [], _ => none
  | r :: rest, 0 => some (r, rest)
  | r :: rest, n + 1 => (spliceOne rest n).map (fun pr => (pr.1, r :: pr.2))

/-- Modelled from the spec: the inner collection lookup
(waveform.segments.remove and waveform.points.remove, whose source is
not under src) locates the record by identity, reference equality or
by id, within the ordered sequence, returning its index, or null
(none) when it is not found. -/
def locateRecord {α : Type} (l : List (Record α)) (t : Record α) : Option Nat :=
  match findIdxAux (fun r => r.ref == t.ref) l with
  | some i => some i
  | none => findIdxAux (fun r => r.id == t.id) l

/-- The facade remove of src/main.js for segments and points: locate
the record; when the lookup yields null, throw a RangeError; otherwise
splice the located index out of the stored sequence and return the
removed record. -/
def removeRecord {α : Type} (l : List (Record α)) (t : Record α) :
    Except PeaksError (Record α × List (Record α)) :=
  match locateRecord l t with
  | none => Except.error PeaksError.rangeError
  | some i =>
    match spliceOne l i with
    | none => Except.error PeaksError.rangeError
    | some (r, rest) => Except.ok (r, rest)

/-- Apply the facade remove to each record of a match list in order,
threading the evolving stored sequence. -/
def removeEach {α : Type} : List (Record α) → List (Record α) → Except PeaksError (List (Record α))
  | l, [] => Except.ok l
  | l, m :: ms =>
    match removeRecord l m with
    | Except.error e => Except.error e
    | Except.ok (_, rest) => removeEach rest ms

/-- The stored sequence holds pairwise distinct object references, as
JS arrays of freshly created record objects do. -/
def NodupRefs {α : Type} (l : List (Record α)) : Prop :=
  (l.map Record.ref).Nodup

/-- removeById of src/main.js (segments and points alike): filter the
live sequence for records whose id matches and apply the facade remove
to each match. -/
def removeById {α : Type} (l : List (Record α)) (recId : Int) :
    Except PeaksError (List (Record α)) :=
  removeEach l (l.filter (fun r => r.id == recId))

/-- The segment match predicate of segments.removeByTime in
src/main.js: a missing end time is coerced to 0; a positive end time
requires both times to match exactly, otherwise only the start time is
compared. -/
def segTimeFilter (startTime : ℚ) (endTime : Option ℚ) : Segment → Bool :=
  let e : ℚ := endTime.getD 0
  if 0 < e then
    fun s => decide (s.data.startTime = startTime) && decide (s.data.endTime = e)
  else
    fun s => decide (s.data.startTime = startTime)

/-- segments.removeByTime of src/main.js: filter a snapshot of the
matching segments, remove each through the facade remove, and return
the count of matches. -/
def segmentsRemoveByTime (l : List Segment) (startTime : ℚ) (endTime : Option ℚ) :
    Except PeaksError (List Segment × Nat) :=
  let ms := l.filter (segTimeFilter startTime endTime)
  match removeEach l ms with
  | Except.error e => Except.error e
  | Except.ok rest => Except.ok (rest, ms.length)

/-- points.removeByTime of src/main.js: filter a snapshot of the
points whose timestamp matches exactly, remove each through the facade
remove, and return the count of matches. -/
def pointsRemoveByTime (l : List Point) (timestamp : ℚ) :
    Except PeaksError (List Point × Nat) :=
  let ms := l.filter (fun p => decide (p.data.timestamp = timestamp))
  match removeEach l ms with
  | Except.error e => Except.error e
  | Except.ok rest => Except.ok (rest, ms.length)

/-! ## Batch add (segments.add / addSegment and points.add) -/

/-- The outcome of one batch add call: the record specifications
passed to the collection create operation in order, the number of
render calls, and the number of deprecation notices logged. -/
structure AddOutcome where
  created : List JSVal
  renders : Nat
  deprecations : Nat

/-- The spec list a batch add examines: when the first positional
argument is an array it is taken as the list of record specs,
otherwise the positional arguments themselves are. -/
def specList (args : List JSVal) : List JSVal :=
  match args.headD JSVal.undef with
  | JSVal.arr l => l
  | _ => args

/-- The structured segment record the legacy positional convention is
translated to: startTime, endTime, editable, color, labelText drawn
from the positional arguments. -/
def segLegacyRecord (args : List JSVal) : JSVal :=
  JSVal.obj [("startTime", jsArg args 0), ("endTime", jsArg args 1),
             ("editable", jsArg args 2), ("color", jsArg args 3),
             ("labelText", jsArg args 4)]

/-- The structured point record the legacy positional convention is
translated to: timestamp, editable, color, labelText drawn from the
positional arguments. -/
def ptLegacyRecord (args : List JSVal) : JSVal :=
  JSVal.obj [("timestamp", jsArg args 0), ("editable", jsArg args 1),
             ("color", jsArg args 2), ("labelText", jsArg args 3)]

/-- addSegment (segments.add) of src/main.js: normalize the arguments
into a spec list; when the first entry of that list is a number, log a
deprecation notice and replace the list by the single translated
record; then create once per record and render once. -/
def segmentsAdd (args : List JSVal) : AddOutcome :=
  let segments := specList args
  if isNumber (segments.headD JSVal.undef) then
    { created := [segLegacyRecord args], renders := 1, deprecations := 1 }
  else
    { created := segments, renders := 1, deprecations := 0 }

/-- points.add of src/main.js: same shape as addSegment with the point
translation. -/
def pointsAdd (args : List JSVal) : AddOutcome :=
  let points := specList args
  if isNumber (points.headD JSVal.undef) then
    { created := [ptLegacyRecord args], renders := 1, deprecations := 1 }
  else
    { created := points, renders := 1, deprecations := 0 }

/-! ## Peaks.init validation -/

/-- The construction errors Peaks.init raises. -/
inductive InitError : Type where
  | missingMediaElement : InitError
  | mediaElementNotMedia : InitError
  | missingContainer : InitError
  | containerWidthNotPositive : InitError
  | loggerNotFunction : InitError
  | invalidTemplate : InitError
deriving DecidableEq

/-- Startup options, each field holding the JS value read off the
options object (undef models an absent key).  The template field
defaults to the built-in template string, mirroring the option
defaults merged by the Peaks constructor. -/
structure InitOpts where
  mediaElement : JSVal := JSVal.undef
  audioElement : JSVal := JSVal.undef
  container : JSVal := JSVal.undef
  logger : JSVal := JSVal.undef
  template : JSVal := JSVal.str "waveformTemplate"

/-- The slice of a constructed Peaks instance the claims observe. -/
structure PeaksInstance where
  container : JSVal
  currentZoomLevel : Int
  logger : JSVal

/-- The media element Peaks.init validates: a truthy audioElement
option overwrites mediaElement (deprecated alias). -/
def effectiveMediaElement (opts : InitOpts) : JSVal :=
  if truthy opts.audioElement then opts.audioElement else opts.mediaElement

/-- Peaks.init of src/main.js, up to the synchronous validation chain:
a falsy media element, a media element that is not an HTMLMediaElement,
a falsy container, a container whose clientWidth is not larger than
zero, a truthy non-function logger, and an unusable template each
raise; otherwise an instance is produced with currentZoomLevel 0 and
the logger installed only when the option is truthy. -/
def peaksInit (opts : InitOpts) : Except InitError PeaksInstance :=
  let media := effectiveMediaElement opts
  if !truthy media then Except.error InitError.missingMediaElement
  else if !isMediaElement media then Except.error InitError.mediaElementNotMedia
  else if !truthy opts.container then Except.error InitError.missingContainer
  else if !clientWidthPositive opts.container then Except.error InitError.containerWidthNotPositive
  else if truthy opts.logger && !isFunction opts.logger then Except.error InitError.loggerNotFunction
  else if !templateAcceptable opts.template then Except.error InitError.invalidTemplate
  else Except.ok { container := opts.container, currentZoomLevel := 0,
                   logger := if truthy opts.logger then opts.logger else JSVal.fn }

/-- Whether Peaks.init produced an instance. -/
def initSucceeds (opts : InitOpts) : Bool :=
  match peaksInit opts with
  | Except.ok _ => true
  | Except.error _ => false

/-! ## Concrete states used by witnesses and counterexamples -/

/-- The default zoom configuration of src/main.js at startup. -/
def zs0 : ZoomState :=
  { zoomLevels := [512, 1024, 2048, 4096], currentZoomLevel := 0 }

/-- Options whose logger is the number 0: supplied and not callable,
but falsy. -/
def loggerZeroOpts : InitOpts :=
  { mediaElement := JSVal.elem true 0,
    container := JSVal.elem false 300,
    logger := JSVal.num 0 }

/-- Concrete segment store used by witnesses: two segments starting at
time 10 and one with a distinct start, with an id shared between the
first and the third. -/
def segsA : List Segment :=
  [{ ref := 0, id := 1, data := { startTime := 10, endTime := 20 } },
   { ref := 1, id := 2, data := { startTime := 10, endTime := 30 } },
   { ref := 2, id := 1, data := { startTime := 5, endTime := 6 } }]

/-- Concrete point store used by witnesses: two points at timestamp 7. -/
def ptsA : List Point :=
  [{ ref := 0, id := 4, data := { timestamp := 7 } },
   { ref := 1, id := 5, data := { timestamp := 7 } }]

/-- A segment matching nothing stored in segsA. -/
def tMissing : Segment :=
  { ref := 9, id := 9, data := { startTime := 0, endTime := 1 } }

/-- The first stored segment of segsA. -/
def seg0 : Segment :=
  { ref := 0, id := 1, data := { startTime := 10, endTime := 20 } }

/-- A point record matching the first point of ptsA by id only. -/
def qById : Point :=
  { ref := 7, id := 4, data := { timestamp := 0 } }

/-- Options with no media element at all. -/
def optsNoMedia : InitOpts := {}

/-- Options whose media element is a number, not an HTMLMediaElement. -/
def optsBadMedia : InitOpts :=
  { mediaElement := JSVal.num 3, container := JSVal.elem false 100 }

/-- Options with a valid media element and no container. -/
def optsNoContainer : InitOpts :=
  { mediaElement := JSVal.elem true 0 }

/-- Options whose container has clientWidth 0. -/
def optsZeroWidth : InitOpts :=
  { mediaElement := JSVal.elem true 0, container := JSVal.elem false 0 }

/-- Options whose logger is a truthy non-function. -/
def optsBadLogger : InitOpts :=
  { mediaElement := JSVal.elem true 0, container := JSVal.elem false 100,
    logger := JSVal.str "oops" }

/-! ## Lemmas about the zoom state machine -/

theorem setZoom_current (s : ZoomState) (i : Int) :
    (setZoom s i).1.currentZoomLevel = specClamp (s.zoomLevels.length : Int) i := by
  simp only [setZoom, specClamp]
  split_ifs <;> omega

theorem setZoom_levels (s : ZoomState) (i : Int) :
    (setZoom s i).1.zoomLevels = s.zoomLevels := rfl

theorem setZoom_events (s : ZoomState) (i : Int) :
    (setZoom s i).2 =
      [{ topic := "zoom.update",
         newScale := lookupLevel s.zoomLevels ((setZoom s i).1.currentZoomLevel),
         prevScale := lookupLevel s.zoomLevels s.currentZoomLevel }] := rfl

instance (s : ZoomState) : Decidable (ZoomValid s) := by
  unfold ZoomValid; infer_instance

theorem zoomValid_setZoom (s : ZoomState) (i : Int) (h : ZoomValid s) :
    ZoomValid (setZoom s i).1 := by
  obtain ⟨h0, h1⟩ := h
  constructor
  · rw [setZoom_current]; simp only [specClamp]; omega
  · rw [setZoom_current, setZoom_levels]; simp only [specClamp]; omega

theorem zoomValid_applyOp (s : ZoomState) (h : ZoomValid s) (op : ZoomOp) :
    ZoomValid (applyOp s op) := by
  cases op with
  | set i => exact zoomValid_setZoom s i h
  | zin => exact zoomValid_setZoom s _ h
  | zout => exact zoomValid_setZoom s _ h

theorem zoomValid_applyOps (ops : List ZoomOp) :
    ∀ s : ZoomState, ZoomValid s → ZoomValid (applyOps s ops) := by
  induction ops with
  | nil => intro s h; exact h
  | cons op ops ih =>
    intro s h
    exact ih (applyOp s op) (zoomValid_applyOp s h op)

theorem lookupLevel_isSome {levels : List Int} {i : Int}
    (h0 : 0 ≤ i) (h1 : i < (levels.length : Int)) :
    (lookupLevel levels i).isSome = true := by
  unfold lookupLevel
  rw [if_pos h0]
  have ht : i.toNat < levels.length := by omega
  simp [List.getElem?_eq_getElem ht]

theorem zoomIn_current (s : ZoomState) (h : ZoomValid s) :
    (zoomIn s).1.currentZoomLevel = max 0 (s.currentZoomLevel - 1) := by
  obtain ⟨h0, h1⟩ := h
  rw [zoomIn, setZoom_current]
  simp only [specClamp]
  omega

theorem zoomInIter_current (k : Nat) :
    ∀ s : ZoomState, ZoomValid s →
      (zoomInIter k s).zoomLevels = s.zoomLevels ∧
      (zoomInIter k s).currentZoomLevel = max 0 (s.currentZoomLevel - k) := by
  induction k with
  | zero =>
    intro s h
    obtain ⟨h0, h1⟩ := h
    refine ⟨rfl, ?_⟩
    simp only [zoomInIter]
    omega
  | succ n ih =>
    intro s h
    obtain ⟨hl, hc⟩ := ih (zoomIn s).1 (zoomValid_setZoom s _ h)
    obtain ⟨h0, h1⟩ := h
    refine ⟨?_, ?_⟩
    · rw [zoomInIter, hl, zoomIn, setZoom_levels]
    · rw [zoomInIter, hc, zoomIn_current s ⟨h0, h1⟩]
      push_cast
      omega

/-! ## Claim theorems about the zoom state machine -/

/-- Claim C1: for every sequence of zoom operations (setZoom with any
integer argument, zoomIn, zoomOut) on a state whose configured
zoomLevels list is non-empty, the invariant 0 <= currentZoomLevel <
len(zoomLevels) holds after each operation; in particular setZoom with
an index outside the range leaves getZoom at the nearest boundary, 0
below and len - 1 above, never out of range. -/
theorem zoom_level_invariant (s : ZoomState) (h : ZoomValid s) :
    (∀ i : Int, ZoomValid (setZoom s i).1) ∧
    (∀ op : ZoomOp, ZoomValid (applyOp s op)) ∧
    (∀ ops : List ZoomOp, ZoomValid (applyOps s ops)) ∧
    (∀ i : Int, i < 0 → getZoom (setZoom s i).1 = 0) ∧
    (∀ i : Int, (s.zoomLevels.length : Int) ≤ i →
      getZoom (setZoom s i).1 = (s.zoomLevels.length : Int) - 1) := by
  obtain ⟨h0, h1⟩ := h
  refine ⟨fun i => zoomValid_setZoom s i ⟨h0, h1⟩,
          fun op => zoomValid_applyOp s ⟨h0, h1⟩ op,
          fun ops => zoomValid_applyOps ops s ⟨h0, h1⟩,
          fun i hi => ?_, fun i hi => ?_⟩ <;>
    · rw [getZoom, setZoom_current]
      simp only [specClamp]
      omega

/-- Witness for C1 at the default configuration: a clamped-out-of-range
setZoom, and validity through a concrete operation sequence. -/
theorem zoom_level_invariant_witness :
    getZoom (setZoom zs0 (-5)).1 = 0 ∧
    getZoom (setZoom zs0 99).1 = 3 ∧
    ZoomValid (applyOps zs0 [ZoomOp.set 99, ZoomOp.zin, ZoomOp.zout, ZoomOp.set (-2)]) := by
  refine ⟨(zoom_level_invariant zs0 (by decide)).2.2.2.1 (-5) (by decide), ?_, ?_⟩
  · have := (zoom_level_invariant zs0 (by decide)).2.2.2.2 99 (by decide)
    simpa using this
  · exact (zoom_level_invariant zs0 (by decide)).2.2.1
      [ZoomOp.set 99, ZoomOp.zin, ZoomOp.zout, ZoomOp.set (-2)]

/-- Claim C2: setZoom clamps the requested index into the valid range
without rejection, records the previous index, updates
currentZoomLevel to the clamped index, and emits exactly one
zoom.update event whose new scale factor is the zoomLevels entry at
the clamped index and whose previous scale factor is the zoomLevels
entry at the previous index. -/
theorem setZoom_transition (s : ZoomState) (i : Int) (h : ZoomValid s) :
    (setZoom s i).1.zoomLevels = s.zoomLevels ∧
    (setZoom s i).1.currentZoomLevel = specClamp (s.zoomLevels.length : Int) i ∧
    (setZoom s i).2 =
      [{ topic := "zoom.update",
         newScale := lookupLevel s.zoomLevels (specClamp (s.zoomLevels.length : Int) i),
         prevScale := lookupLevel s.zoomLevels s.currentZoomLevel }] ∧
    (lookupLevel s.zoomLevels (specClamp (s.zoomLevels.length : Int) i)).isSome = true ∧
    (lookupLevel s.zoomLevels s.currentZoomLevel).isSome = true := by
  obtain ⟨h0, h1⟩ := h
  have hc := setZoom_current s i
  refine ⟨setZoom_levels s i, hc, ?_, ?_, lookupLevel_isSome h0 h1⟩
  · rw [setZoom_events, hc]
  · refine lookupLevel_isSome ?_ ?_ <;> simp only [specClamp] <;> omega

/-- Witness for C2: setZoom 7 on the default four-level configuration
clamps to index 3 and emits the scale factors 4096 (new) and 512
(previous). -/
theorem setZoom_transition_witness :
    (setZoom zs0 7).1.currentZoomLevel = 3 ∧
    (setZoom zs0 7).2 =
      [{ topic := "zoom.update", newScale := some 4096, prevScale := some 512 }] := by
  have h := setZoom_transition zs0 7 (by decide)
  refine ⟨h.2.1.trans (by decide), h.2.2.1.trans (by decide)⟩

/-- Claim C7: zoomIn is setZoom at the current index minus one and
zoomOut is setZoom at the current index plus one; from any valid
index, len(zoomLevels) zoomIn calls end with getZoom 0, and any
further zoomIn calls stay at 0. -/
theorem zoomIn_zoomOut_sugar (s : ZoomState) (h : ZoomValid s) :
    (∀ t : ZoomState, zoomIn t = setZoom t (t.currentZoomLevel - 1)) ∧
    (∀ t : ZoomState, zoomOut t = setZoom t (t.currentZoomLevel + 1)) ∧
    getZoom (zoomInIter s.zoomLevels.length s) = 0 ∧
    (∀ k : Nat, getZoom (zoomInIter (s.zoomLevels.length + k) s) = 0) := by
  have key : ∀ k : Nat, s.zoomLevels.length ≤ k → getZoom (zoomInIter k s) = 0 := by
    intro k hk
    obtain ⟨h0, h1⟩ := h
    have := (zoomInIter_current k s ⟨h0, h1⟩).2
    rw [getZoom, this]
    omega
  exact ⟨fun _ => rfl, fun _ => rfl, key _ le_rfl, fun k => key _ (by omega)⟩

/-- Witness for C7 at the default configuration, starting from
index 2: four zoomIn calls reach 0 and two more stay at 0. -/
theorem zoomIn_zoomOut_sugar_witness :
    getZoom (zoomInIter 4 { zoomLevels := [512, 1024, 2048, 4096], currentZoomLevel := 2 }) = 0 ∧
    getZoom (zoomInIter 6 { zoomLevels := [512, 1024, 2048, 4096], currentZoomLevel := 2 }) = 0 := by
  have h := zoomIn_zoomOut_sugar
    { zoomLevels := [512, 1024, 2048, 4096], currentZoomLevel := 2 } (by decide)
  exact ⟨h.2.2.1, h.2.2.2 2⟩

/-- Claim C8: overview and reset each emit exactly one zoom.update
event built from the overview scale factor supplied by the waveform
data collaborator, in place of the corresponding zoomLevels entry, and
neither changes the state: currentZoomLevel and every other field are
unchanged. -/
theorem overview_reset_pulse (s : ZoomState) (v : Int) :
    zoomToOverview s v =
      (s, [{ topic := "zoom.update", newScale := some v,
             prevScale := lookupLevel s.zoomLevels s.currentZoomLevel }]) ∧
    resetOverview s v =
      (s, [{ topic := "zoom.update",
             newScale := lookupLevel s.zoomLevels s.currentZoomLevel,
             prevScale := some v }]) ∧
    getZoom (zoomToOverview s v).1 = getZoom s ∧
    getZoom (resetOverview s v).1 = getZoom s :=
  ⟨rfl, rfl, rfl, rfl⟩

/-- Claim C10: every setZoom call emits exactly one zoom.update event
even when the clamped target equals the current index; zoomIn at index
0 and zoomOut at the top index still emit one event whose new and
previous scale factors coincide, and leave the state unchanged. -/
theorem setZoom_always_emits (s : ZoomState) (i : Int) (h : ZoomValid s) :
    (setZoom s i).2.length = 1 ∧
    (specClamp (s.zoomLevels.length : Int) i = s.currentZoomLevel →
      (setZoom s i).1 = s ∧
      (setZoom s i).2 =
        [{ topic := "zoom.update",
           newScale := lookupLevel s.zoomLevels s.currentZoomLevel,
           prevScale := lookupLevel s.zoomLevels s.currentZoomLevel }]) ∧
    (s.currentZoomLevel = 0 →
      (zoomIn s).1 = s ∧
      (zoomIn s).2 =
        [{ topic := "zoom.update",
           newScale := lookupLevel s.zoomLevels 0,
           prevScale := lookupLevel s.zoomLevels 0 }]) ∧
    (s.currentZoomLevel = (s.zoomLevels.length : Int) - 1 →
      (zoomOut s).1 = s ∧
      (zoomOut s).2 =
        [{ topic := "zoom.update",
           newScale := lookupLevel s.zoomLevels ((s.zoomLevels.length : Int) - 1),
           prevScale := lookupLevel s.zoomLevels ((s.zoomLevels.length : Int) - 1) }]) := by
  obtain ⟨h0, h1⟩ := h
  have state_eq : ∀ j : Int, specClamp (s.zoomLevels.length : Int) j = s.currentZoomLevel →
      (setZoom s j).1 = s := by
    intro j hj
    obtain ⟨levels, cur⟩ := s
    have hc := setZoom_current ⟨levels, cur⟩ j
    simp only at hj hc
    rw [hj] at hc
    calc (setZoom ⟨levels, cur⟩ j).1
        = ⟨levels, (setZoom ⟨levels, cur⟩ j).1.currentZoomLevel⟩ := rfl
      _ = ⟨levels, cur⟩ := by rw [hc]
  refine ⟨rfl, fun hj => ⟨state_eq i hj, ?_⟩, fun hcur => ⟨?_, ?_⟩, fun hcur => ⟨?_, ?_⟩⟩
  · rw [setZoom_events, setZoom_current, hj]
  · refine state_eq _ ?_
    simp only [specClamp]
    omega
  · rw [zoomIn, setZoom_events, setZoom_current]
    have : specClamp (s.zoomLevels.length : Int) (s.currentZoomLevel - 1) = 0 := by
      simp only [specClamp]; omega
    rw [this, hcur]
  · refine state_eq _ ?_
    simp only [specClamp]
    omega
  · rw [zoomOut, setZoom_events, setZoom_current]
    have : specClamp (s.zoomLevels.length : Int) (s.currentZoomLevel + 1) =
        (s.zoomLevels.length : Int) - 1 := by
      simp only [specClamp]; omega
    rw [this, hcur]

/-- Witness for C10: at the default configuration (index 0), zoomIn
still emits one event with 512 as both scale factors and does not move
the index; zoomOut at index 3 emits 4096 twice. -/
theorem setZoom_always_emits_witness :
    (zoomIn zs0).1 = zs0 ∧
    (zoomIn zs0).2 =
      [{ topic := "zoom.update", newScale := some 512, prevScale := some 512 }] ∧
    (setZoom zs0 0).2.length = 1 := by
  have h := setZoom_always_emits zs0 0 (by decide)
  obtain ⟨hs, he⟩ := h.2.2.1 (by decide)
  exact ⟨hs, he.trans (by decide), h.1⟩

/-! ## Lemmas about record removal -/

instance {α : Type} (l : List (Record α)) : Decidable (NodupRefs l) := by
  unfold NodupRefs; infer_instance

theorem findIdxAux_eq_none_iff {α : Type} (p : α → Bool) (l : List α) :
    findIdxAux p l = none ↔ ∀ r ∈ l, p r = false := by
  induction l with
  | nil => simp [findIdxAux]
  | cons a t ih =>
    constructor
    · intro h r hr
      rw [findIdxAux] at h
      by_cases hp : p a
      · rw [if_pos hp] at h
        cases h
      · rw [if_neg hp] at h
        have ht : findIdxAux p t = none := by
          cases hfi : findIdxAux p t with
          | none => rfl
          | some j => rw [hfi] at h; cases h
        rcases List.mem_cons.mp hr with rfl | hr
        · exact Bool.eq_false_iff.mpr hp
        · exact (ih.mp ht) r hr
    · intro h
      rw [findIdxAux, if_neg (by simp [h a (List.mem_cons_self a t)]),
        ih.mpr (fun r hr => h r (List.mem_cons_of_mem a hr))]
      rfl

theorem locateRecord_ref {α : Type} {l : List (Record α)} {t : Record α} {i : Nat}
    (hfind : findIdxAux (fun r => r.ref == t.ref) l = some i) :
    locateRecord l t = some i := by
  rw [locateRecord, hfind]

theorem locateRecord_id {α : Type} {l : List (Record α)} {t : Record α} {i : Nat}
    (h1 : findIdxAux (fun r => r.ref == t.ref) l = none)
    (h2 : findIdxAux (fun r => r.id == t.id) l = some i) :
    locateRecord l t = some i := by
  rw [locateRecord, h1, h2]

theorem removeRecord_ok {α : Type} {l : List (Record α)} {t : Record α} {i : Nat}
    {r : Record α} {rest : List (Record α)}
    (hloc : locateRecord l t = some i) (hsp : spliceOne l i = some (r, rest)) :
    removeRecord l t = Except.ok (r, rest) := by
  have h1 : removeRecord l t = match spliceOne l i with
      | none => Except.error PeaksError.rangeError
      | some (r, rest) => Except.ok (r, rest) := by
    rw [removeRecord, hloc]
  rw [h1, hsp]

theorem find_splice {α : Type} (p : α → Bool) (l : List α) (hex : ∃ r ∈ l, p r = true) :
    ∃ pre r post, l = pre ++ r :: post ∧ p r = true ∧
      (∀ x ∈ pre, p x = false) ∧
      findIdxAux p l = some pre.length ∧
      spliceOne l pre.length = some (r, pre ++ post) := by
  induction l with
  | nil =>
    obtain ⟨r, hr, _⟩ := hex
    cases hr
  | cons a t ih =>
    by_cases hp : p a
    · exact ⟨[], a, t, rfl, hp, by simp, by simp [findIdxAux, hp], by simp [spliceOne]⟩
    · have hex' : ∃ r ∈ t, p r = true := by
        obtain ⟨r, hr, hpr⟩ := hex
        rcases List.mem_cons.mp hr with rfl | hrt
        · exact absurd hpr hp
        · exact ⟨r, hrt, hpr⟩
      obtain ⟨pre, r, post, heq, hpr, hpre, hfind, hsplice⟩ := ih hex'
      refine ⟨a :: pre, r, post, by rw [heq]; rfl, hpr, ?_, ?_, ?_⟩
      · intro x hx
        rcases List.mem_cons.mp hx with rfl | hx
        · exact Bool.eq_false_iff.mpr hp
        · exact hpre x hx
      · simp [findIdxAux, hp, hfind]
      · simp [spliceOne, hsplice]

theorem refInj {α : Type} {l : List (Record α)} (hnd : NodupRefs l) :
    ∀ a ∈ l, ∀ b ∈ l, a.ref = b.ref → a = b :=
  fun _ ha _ hb h => List.inj_on_of_nodup_map hnd ha hb h

theorem nodupRefs_filter {α : Type} (q : Record α → Bool) {l : List (Record α)}
    (hnd : NodupRefs l) : NodupRefs (l.filter q) :=
  ((List.filter_sublist l).map Record.ref).nodup hnd

theorem removeRecord_mem {α : Type} (l : List (Record α)) (m : Record α)
    (hnd : NodupRefs l) (hm : m ∈ l) :
    removeRecord l m = Except.ok (m, l.filter (fun r => !(m.ref == r.ref))) := by
  obtain ⟨pre, r, post, heq, hpr, hpre, hfind, hsplice⟩ :=
    find_splice (fun r : Record α => r.ref == m.ref) l ⟨m, hm, by simp⟩
  have hrm : r = m := by
    refine refInj hnd r ?_ m hm (by simpa using hpr)
    rw [heq]
    exact List.mem_append.mpr (Or.inr (List.mem_cons_self r post))
  subst hrm
  subst heq
  have hpost : ∀ x ∈ post, (!(r.ref == x.ref)) = true := by
    have hnd' := hnd
    simp only [NodupRefs, List.map_append, List.map_cons, List.nodup_append,
      List.nodup_cons] at hnd'
    intro x hx
    have : r.ref ∉ post.map Record.ref := hnd'.2.1.1
    simp only [Bool.not_eq_true', beq_eq_false_iff_ne, ne_eq]
    intro hcontra
    exact this (hcontra ▸ List.mem_map_of_mem Record.ref hx)
  have hpref : ∀ x ∈ pre, (!(r.ref == x.ref)) = true := by
    intro x hx
    have := hpre x hx
    simp only [beq_eq_false_iff_ne, ne_eq] at this
    simp only [Bool.not_eq_true', beq_eq_false_iff_ne, ne_eq]
    exact fun hcontra => this hcontra.symm
  have hfil : (pre ++ r :: post).filter (fun x => !(r.ref == x.ref)) = pre ++ post := by
    rw [List.filter_append, List.filter_eq_self.mpr hpref,
      List.filter_cons_of_neg (by simp), List.filter_eq_self.mpr hpost]
  rw [hfil]
  exact removeRecord_ok (locateRecord_ref hfind) hsplice

theorem removeEach_sublist {α : Type} (ms : List (Record α)) :
    ∀ l : List (Record α), NodupRefs l → ms.Sublist l →
      removeEach l ms =
        Except.ok (l.filter (fun r => !(ms.any (fun m => m.ref == r.ref)))) := by
  induction ms with
  | nil =>
    intro l _ _
    simp [removeEach]
  | cons m ms ih =>
    intro l hnd hsub
    have hm : m ∈ l := hsub.subset (List.mem_cons_self m ms)
    have hnodupcons : ((m :: ms).map Record.ref).Nodup :=
      (hsub.map Record.ref).nodup hnd
    have hmref : m.ref ∉ ms.map Record.ref := by
      simp only [List.map_cons, List.nodup_cons] at hnodupcons
      exact hnodupcons.1
    have hms_keep : ms.filter (fun r => !(m.ref == r.ref)) = ms := by
      refine List.filter_eq_self.mpr (fun x hx => ?_)
      simp only [Bool.not_eq_true', beq_eq_false_iff_ne, ne_eq]
      exact fun hcontra => hmref (hcontra ▸ List.mem_map_of_mem Record.ref hx)
    have hsub' : ms.Sublist (l.filter (fun r => !(m.ref == r.ref))) := by
      have h1 : (ms.filter (fun r => !(m.ref == r.ref))).Sublist
          (l.filter (fun r => !(m.ref == r.ref))) :=
        ((List.sublist_cons_self m ms).trans hsub).filter _
      rwa [hms_keep] at h1
    have hnd' : NodupRefs (l.filter (fun r => !(m.ref == r.ref))) :=
      nodupRefs_filter _ hnd
    have hstep : removeEach l (m :: ms) =
        removeEach (l.filter (fun r => !(m.ref == r.ref))) ms := by
      rw [removeEach, removeRecord_mem l m hnd hm]
    rw [hstep, ih _ hnd' hsub', List.filter_filter]
    congr 1
    refine List.filter_congr (fun x _ => ?_)
    simp only [List.any_cons, Bool.not_or, Bool.and_comm]

theorem filter_any_refs {α : Type} (p : Record α → Bool) (l : List (Record α))
    (hnd : NodupRefs l) :
    l.filter (fun r => !((l.filter p).any (fun m => m.ref == r.ref))) =
      l.filter (fun r => !(p r)) := by
  refine List.filter_congr (fun x hx => ?_)
  have : ((l.filter p).any (fun m => m.ref == x.ref)) = p x := by
    by_cases hp : p x = true
    · rw [hp]
      exact List.any_eq_true.mpr ⟨x, List.mem_filter.mpr ⟨hx, hp⟩, by simp⟩
    · have hp' : p x = false := Bool.eq_false_iff.mpr hp
      rw [hp']
      rw [Bool.eq_false_iff]
      intro hany
      obtain ⟨m, hmm, hmref⟩ := List.any_eq_true.mp hany
      obtain ⟨hml, hmp⟩ := List.mem_filter.mp hmm
      have : m = x := refInj hnd m hml x hx (by simpa using hmref)
      exact hp (this ▸ hmp)
  rw [this]

theorem removeEach_filter {α : Type} (p : Record α → Bool) (l : List (Record α))
    (hnd : NodupRefs l) :
    removeEach l (l.filter p) = Except.ok (l.filter (fun r => !(p r))) := by
  rw [removeEach_sublist (l.filter p) l hnd (List.filter_sublist l),
    filter_any_refs p l hnd]

theorem removeRecord_error {α : Type} (l : List (Record α)) (t : Record α)
    (h : ∀ r ∈ l, r.ref ≠ t.ref ∧ r.id ≠ t.id) :
    removeRecord l t = Except.error PeaksError.rangeError := by
  have h1 : findIdxAux (fun r : Record α => r.ref == t.ref) l = none :=
    (findIdxAux_eq_none_iff _ _).mpr
      (fun r hr => by simpa using (h r hr).1)
  have h2 : findIdxAux (fun r : Record α => r.id == t.id) l = none :=
    (findIdxAux_eq_none_iff _ _).mpr
      (fun r hr => by simpa using (h r hr).2)
  rw [removeRecord, locateRecord, h1, h2]

theorem removeRecord_found {α : Type} (l : List (Record α)) (t : Record α)
    (h : ∃ r ∈ l, r.ref = t.ref ∨ r.id = t.id) :
    ∃ (r : Record α) (pre post : List (Record α)),
      l = pre ++ r :: post ∧ (r.ref = t.ref ∨ r.id = t.id) ∧
      removeRecord l t = Except.ok (r, pre ++ post) := by
  by_cases hr : ∃ x ∈ l, (x.ref == t.ref) = true
  · obtain ⟨pre, r, post, heq, hpr, _, hfind, hsplice⟩ :=
      find_splice (fun x : Record α => x.ref == t.ref) l hr
    exact ⟨r, pre, post, heq, Or.inl (by simpa using hpr),
      removeRecord_ok (locateRecord_ref hfind) hsplice⟩
  · have h1 : findIdxAux (fun x : Record α => x.ref == t.ref) l = none := by
      rw [findIdxAux_eq_none_iff]
      intro x hx
      rw [Bool.eq_false_iff]
      exact fun hc => hr ⟨x, hx, hc⟩
    have hex2 : ∃ x ∈ l, (x.id == t.id) = true := by
      obtain ⟨r, hrl, hcase⟩ := h
      rcases hcase with hrr | hri
      · exact absurd ⟨r, hrl, by simpa using hrr⟩ hr
      · exact ⟨r, hrl, by simpa using hri⟩
    obtain ⟨pre, r, post, heq, hpr, _, hfind, hsplice⟩ :=
      find_splice (fun x : Record α => x.id == t.id) l hex2
    exact ⟨r, pre, post, heq, Or.inr (by simpa using hpr),
      removeRecord_ok (locateRecord_id h1 hfind) hsplice⟩

/-! ## Claim theorems about removal -/

/-- Claim C9: for every id value, removeById on segments or points
removes exactly the stored records whose id equals the given id, and a
zero-match call raises no error and leaves the stored sequence
unchanged. -/
theorem removeById_removes_all_matches (ls : List Segment) (lp : List Point)
    (segId ptId : Int) (hs : NodupRefs ls) (hp : NodupRefs lp) :
    removeById ls segId = Except.ok (ls.filter (fun r => !(r.id == segId))) ∧
    removeById lp ptId = Except.ok (lp.filter (fun r => !(r.id == ptId))) ∧
    ((∀ r ∈ ls, r.id ≠ segId) → removeById ls segId = Except.ok ls) ∧
    ((∀ r ∈ lp, r.id ≠ ptId) → removeById lp ptId = Except.ok lp) := by
  have h1 : removeById ls segId = Except.ok (ls.filter (fun r => !(r.id == segId))) :=
    removeEach_filter (fun r : Segment => r.id == segId) ls hs
  have h2 : removeById lp ptId = Except.ok (lp.filter (fun r => !(r.id == ptId))) :=
    removeEach_filter (fun r : Point => r.id == ptId) lp hp
  refine ⟨h1, h2, fun hno => ?_, fun hno => ?_⟩
  · rw [h1, List.filter_eq_self.mpr (fun a ha => by simpa using hno a ha)]
  · rw [h2, List.filter_eq_self.mpr (fun a ha => by simpa using hno a ha)]

/-- Witness for C9: removing id 1 from the concrete store removes the
first and third segments; removing an absent id from the point store
is an error-free no-op. -/
theorem removeById_removes_all_matches_witness :
    removeById segsA 1 =
      Except.ok [{ ref := 1, id := 2, data := { startTime := 10, endTime := 30 } }] ∧
    removeById ptsA 9 = Except.ok ptsA := by
  have h := removeById_removes_all_matches segsA ptsA 1 9 (by decide) (by decide)
  exact ⟨h.1.trans (by rfl), h.2.2.2 (by decide)⟩

/-- Claim C3: segments.removeByTime with no end time or a non-positive
end time removes exactly the segments whose startTime matches exactly,
with a positive end time exactly those whose startTime and endTime
both match exactly; points.removeByTime removes exactly the points
whose timestamp matches exactly; each returns the count removed (0
when nothing matches). -/
theorem removeByTime_exact_match (ls : List Segment) (lp : List Point)
    (st e ts : ℚ) (hs : NodupRefs ls) (hp : NodupRefs lp) :
    segmentsRemoveByTime ls st none =
      Except.ok (ls.filter (fun s => !(decide (s.data.startTime = st))),
        (ls.filter (fun s => decide (s.data.startTime = st))).length) ∧
    (e ≤ 0 → segmentsRemoveByTime ls st (some e) =
      Except.ok (ls.filter (fun s => !(decide (s.data.startTime = st))),
        (ls.filter (fun s => decide (s.data.startTime = st))).length)) ∧
    (0 < e → segmentsRemoveByTime ls st (some e) =
      Except.ok (ls.filter (fun s =>
          !(decide (s.data.startTime = st) && decide (s.data.endTime = e))),
        (ls.filter (fun s =>
          decide (s.data.startTime = st) && decide (s.data.endTime = e))).length)) ∧
    pointsRemoveByTime lp ts =
      Except.ok (lp.filter (fun p => !(decide (p.data.timestamp = ts))),
        (lp.filter (fun p => decide (p.data.timestamp = ts))).length) := by
  have key : ∀ (et : Option ℚ) (f : Segment → Bool), segTimeFilter st et = f →
      segmentsRemoveByTime ls st et =
        Except.ok (ls.filter (fun s => !(f s)), (ls.filter f).length) := by
    intro et f hf
    have h1 : segmentsRemoveByTime ls st et =
        match removeEach ls (ls.filter (segTimeFilter st et)) with
        | Except.error e => Except.error e
        | Except.ok rest => Except.ok (rest, (ls.filter (segTimeFilter st et)).length) := by
      rw [segmentsRemoveByTime]
    rw [h1, hf, removeEach_filter f ls hs]
  have hnone : segTimeFilter st none = fun s => decide (s.data.startTime = st) := by
    rw [segTimeFilter]
    simp only [Option.getD_none]
    rw [if_neg (lt_irrefl 0)]
  refine ⟨key none _ hnone, fun he => ?_, fun he => ?_, ?_⟩
  · refine key (some e) _ ?_
    rw [segTimeFilter]
    simp only [Option.getD_some]
    rw [if_neg (not_lt.mpr he)]
  · refine key (some e) _ ?_
    rw [segTimeFilter]
    simp only [Option.getD_some]
    rw [if_pos he]
  · have h1 : pointsRemoveByTime lp ts =
        match removeEach lp (lp.filter (fun p => decide (p.data.timestamp = ts))) with
        | Except.error e => Except.error e
        | Except.ok rest =>
            Except.ok (rest, (lp.filter (fun p => decide (p.data.timestamp = ts))).length) := by
      rw [pointsRemoveByTime]
    rw [h1, removeEach_filter _ lp hp]

/-- Witness for C3 on the concrete stores, matching the worked example
of the spec: removeByTime 10 removes both segments starting at 10 and
returns 2; removeByTime 10 20 removes only the exact match and returns
1; the point removal at timestamp 7 removes both points. -/
theorem removeByTime_exact_match_witness :
    segmentsRemoveByTime segsA 10 none =
      Except.ok ([{ ref := 2, id := 1, data := { startTime := 5, endTime := 6 } }], 2) ∧
    segmentsRemoveByTime segsA 10 (some 20) =
      Except.ok ([{ ref := 1, id := 2, data := { startTime := 10, endTime := 30 } },
                  { ref := 2, id := 1, data := { startTime := 5, endTime := 6 } }], 1) ∧
    pointsRemoveByTime ptsA 7 = Except.ok ([], 2) := by
  have h := removeByTime_exact_match segsA ptsA 10 20 7 (by decide) (by decide)
  exact ⟨h.1.trans (by rfl), (h.2.2.1 (by decide)).trans (by rfl), h.2.2.2.trans (by rfl)⟩

/-- Claim C4: the facade remove for segments and points fails with a
range error, with the stored sequence untouched, when no stored record
matches the argument by reference identity or by id; when a record
matches, that record is removed from the stored sequence and returned. -/
theorem remove_lookup_or_range_error (ls : List Segment) (t : Segment)
    (lp : List Point) (q : Point) :
    ((∀ r ∈ ls, r.ref ≠ t.ref ∧ r.id ≠ t.id) →
      removeRecord ls t = Except.error PeaksError.rangeError) ∧
    ((∃ r ∈ ls, r.ref = t.ref ∨ r.id = t.id) →
      ∃ r pre post, ls = pre ++ r :: post ∧ (r.ref = t.ref ∨ r.id = t.id) ∧
        removeRecord ls t = Except.ok (r, pre ++ post)) ∧
    (NodupRefs ls → t ∈ ls →
      removeRecord ls t = Except.ok (t, ls.filter (fun r => !(t.ref == r.ref)))) ∧
    ((∀ r ∈ lp, r.ref ≠ q.ref ∧ r.id ≠ q.id) →
      removeRecord lp q = Except.error PeaksError.rangeError) ∧
    ((∃ r ∈ lp, r.ref = q.ref ∨ r.id = q.id) →
      ∃ r pre post, lp = pre ++ r :: post ∧ (r.ref = q.ref ∨ r.id = q.id) ∧
        removeRecord lp q = Except.ok (r, pre ++ post)) ∧
    (NodupRefs lp → q ∈ lp →
      removeRecord lp q = Except.ok (q, lp.filter (fun r => !(q.ref == r.ref)))) :=
  ⟨removeRecord_error ls t, removeRecord_found ls t,
   fun h hm => removeRecord_mem ls t h hm,
   removeRecord_error lp q, removeRecord_found lp q,
   fun h hm => removeRecord_mem lp q h hm⟩

/-- Witness for C4: removing an unmatched segment from the concrete
store raises the range error; removing a stored segment returns it and
drops it from the sequence; a point matched by id alone is found. -/
theorem remove_lookup_or_range_error_witness :
    removeRecord segsA tMissing = Except.error PeaksError.rangeError ∧
    removeRecord segsA seg0 =
      Except.ok (seg0,
        [{ ref := 1, id := 2, data := { startTime := 10, endTime := 30 } },
         { ref := 2, id := 1, data := { startTime := 5, endTime := 6 } }]) ∧
    (∃ r pre post, ptsA = pre ++ r :: post ∧ (r.ref = qById.ref ∨ r.id = qById.id) ∧
      removeRecord ptsA qById = Except.ok (r, pre ++ post)) := by
  refine ⟨(remove_lookup_or_range_error segsA tMissing ptsA qById).1 (by decide),
    ?_,
    (remove_lookup_or_range_error segsA tMissing ptsA qById).2.2.2.2.1 (by decide)⟩
  exact ((remove_lookup_or_range_error segsA seg0 ptsA qById).2.2.1
    (by decide) (by decide)).trans (by rfl)

/-! ## Claim theorems about batch add -/

/-- Counterexample for C5: calling the batch add with a single array
argument whose first element is a number triggers the legacy detection
and logs the deprecation notice, although the first positional value
of the call is an array, not a number. -/
theorem addSegment_legacy_detection_counterexample :
    (segmentsAdd [JSVal.arr [JSVal.num 10, JSVal.num 20]]).deprecations = 1 ∧
    isNumber (jsArg [JSVal.arr [JSVal.num 10, JSVal.num 20]] 0) = false :=
  ⟨rfl, rfl⟩

/-- Claim C5 (amended): the legacy positional calling convention is
detected exactly when the first element of the examined spec list is
numeric, where the spec list is the first positional argument when it
is an array and the positional argument list otherwise; when detected,
one deprecation notice is logged and the positional arguments are
translated into one structured record (startTime, endTime, editable,
color, labelText for segments; timestamp, editable, color, labelText
for points) before per-record creation; in every batch add, creation
runs once per record and exactly one render is triggered. -/
theorem add_batch_legacy_translation (args : List JSVal) :
    ((segmentsAdd args).deprecations = 1 ↔
      isNumber ((specList args).headD JSVal.undef) = true) ∧
    ((pointsAdd args).deprecations = 1 ↔
      isNumber ((specList args).headD JSVal.undef) = true) ∧
    (isNumber ((specList args).headD JSVal.undef) = true →
      (segmentsAdd args).created = [segLegacyRecord args] ∧
      (pointsAdd args).created = [ptLegacyRecord args]) ∧
    (isNumber ((specList args).headD JSVal.undef) = false →
      (segmentsAdd args).created = specList args ∧
      (pointsAdd args).created = specList args ∧
      (segmentsAdd args).deprecations = 0 ∧
      (pointsAdd args).deprecations = 0) ∧
    (∀ (x : ℚ) (rest : List JSVal), args = JSVal.num x :: rest →
      (segmentsAdd args).deprecations = 1 ∧
      (segmentsAdd args).created = [segLegacyRecord args]) ∧
    (segmentsAdd args).renders = 1 ∧ (pointsAdd args).renders = 1 := by
  by_cases h : isNumber ((specList args).headD JSVal.undef) = true
  · have hseg : segmentsAdd args =
        { created := [segLegacyRecord args], renders := 1, deprecations := 1 } := by
      rw [segmentsAdd, if_pos h]
    have hpt : pointsAdd args =
        { created := [ptLegacyRecord args], renders := 1, deprecations := 1 } := by
      rw [pointsAdd, if_pos h]
    rw [hseg, hpt]
    exact ⟨iff_of_true rfl h, iff_of_true rfl h, fun _ => ⟨rfl, rfl⟩,
      fun hc => absurd (hc.symm.trans h) Bool.false_ne_true,
      fun x rest harg => ⟨rfl, rfl⟩, rfl, rfl⟩
  · have h' : isNumber ((specList args).headD JSVal.undef) = false :=
      Bool.eq_false_iff.mpr h
    have hseg : segmentsAdd args =
        { created := specList args, renders := 1, deprecations := 0 } := by
      rw [segmentsAdd, if_neg h]
    have hpt : pointsAdd args =
        { created := specList args, renders := 1, deprecations := 0 } := by
      rw [pointsAdd, if_neg h]
    rw [hseg, hpt]
    refine ⟨iff_of_false (by simp) h, iff_of_false (by simp) h,
      fun hc => absurd hc h, fun _ => ⟨rfl, rfl, rfl, rfl⟩, ?_, rfl, rfl⟩
    intro x rest harg
    subst harg
    simp [specList, isNumber] at h'

/-- Witness for C5: a genuine legacy positional call is translated into
the structured record and logs one deprecation; a structured call
creates the given record and logs none. -/
theorem add_batch_legacy_translation_witness :
    (segmentsAdd [JSVal.num 3, JSVal.num 5]).created =
      [JSVal.obj [("startTime", JSVal.num 3), ("endTime", JSVal.num 5),
        ("editable", JSVal.undef), ("color", JSVal.undef),
        ("labelText", JSVal.undef)]] ∧
    (segmentsAdd [JSVal.num 3, JSVal.num 5]).deprecations = 1 ∧
    (pointsAdd [JSVal.obj [("timestamp", JSVal.num 1)]]).created =
      [JSVal.obj [("timestamp", JSVal.num 1)]] ∧
    (pointsAdd [JSVal.obj [("timestamp", JSVal.num 1)]]).deprecations = 0 ∧
    (segmentsAdd [JSVal.num 3, JSVal.num 5]).renders = 1 := by
  have h1 := add_batch_legacy_translation [JSVal.num 3, JSVal.num 5]
  have h2 := add_batch_legacy_translation [JSVal.obj [("timestamp", JSVal.num 1)]]
  refine ⟨(h1.2.2.1 rfl).1.trans (by rfl), h1.1.mpr rfl, ?_, ?_, h1.2.2.2.2.2.1⟩
  · exact (h2.2.2.2.1 rfl).1.trans (by rfl)
  · exact (h2.2.2.2.1 rfl).2.2.2

/-! ## Claim theorems about initialization -/

/-- The exact success condition of the modelled Peaks.init. -/
theorem initSucceeds_true_iff (opts : InitOpts) :
    initSucceeds opts = true ↔
      (truthy (effectiveMediaElement opts) = true ∧
       isMediaElement (effectiveMediaElement opts) = true ∧
       truthy opts.container = true ∧
       clientWidthPositive opts.container = true ∧
       (truthy opts.logger = false ∨ isFunction opts.logger = true) ∧
       templateAcceptable opts.template = true) := by
  unfold initSucceeds peaksInit
  by_cases h1 : truthy (effectiveMediaElement opts) = true <;>
    by_cases h2 : isMediaElement (effectiveMediaElement opts) = true <;>
    by_cases h3 : truthy opts.container = true <;>
    by_cases h4 : clientWidthPositive opts.container = true <;>
    by_cases h5 : truthy opts.logger = true <;>
    by_cases h6 : isFunction opts.logger = true <;>
    by_cases h7 : templateAcceptable opts.template = true <;>
    simp_all

/-- Counterexample for C6: a logger supplied as the number 0 is not
callable, yet Peaks.init raises no error and produces an instance,
because the validation only rejects truthy non-function loggers. -/
theorem init_falsy_logger_counterexample :
    loggerZeroOpts.logger = JSVal.num 0 ∧
    isFunction loggerZeroOpts.logger = false ∧
    initSucceeds loggerZeroOpts = true :=
  ⟨rfl, rfl, rfl⟩

/-- Claim C6 (amended): initialization fails fast with a synchronous
construction error, and no instance is produced, whenever the media
element (after the audioElement alias) is absent or is not an
HTMLMediaElement, the container is absent or its measured width is not
positive, or a supplied logger is truthy and not callable; a falsy
non-callable logger value is treated as absent and does not raise. -/
theorem init_fails_fast_validation (opts : InitOpts) :
    (effectiveMediaElement opts = JSVal.undef → initSucceeds opts = false) ∧
    (isMediaElement (effectiveMediaElement opts) = false → initSucceeds opts = false) ∧
    (opts.container = JSVal.undef → initSucceeds opts = false) ∧
    (clientWidthPositive opts.container = false → initSucceeds opts = false) ∧
    (truthy opts.logger = true → isFunction opts.logger = false →
      initSucceeds opts = false) := by
  have hiff := initSucceeds_true_iff opts
  refine ⟨fun h => ?_, fun h => ?_, fun h => ?_, fun h => ?_, fun h1 h2 => ?_⟩ <;>
    refine Bool.eq_false_iff.mpr (fun htrue => ?_)
  · obtain ⟨c1, _⟩ := hiff.mp htrue
    rw [h] at c1
    simp [truthy] at c1
  · obtain ⟨_, c2, _⟩ := hiff.mp htrue
    rw [h] at c2
    cases c2
  · obtain ⟨_, _, c3, _⟩ := hiff.mp htrue
    rw [h] at c3
    simp [truthy] at c3
  · obtain ⟨_, _, _, c4, _⟩ := hiff.mp htrue
    rw [h] at c4
    cases c4
  · obtain ⟨_, _, _, _, c5, _⟩ := hiff.mp htrue
    rcases c5 with c5 | c5
    · rw [h1] at c5; cases c5
    · rw [h2] at c5; cases c5

/-- Witness for C6 (amended): each malformed-input condition refuses
to produce an instance on a concrete options value. -/
theorem init_fails_fast_validation_witness :
    initSucceeds optsNoMedia = false ∧
    initSucceeds optsBadMedia = false ∧
    initSucceeds optsNoContainer = false ∧
    initSucceeds optsZeroWidth = false ∧
    initSucceeds optsBadLogger = false :=
  ⟨(init_fails_fast_validation optsNoMedia).1 rfl,
   (init_fails_fast_validation optsBadMedia).2.1 rfl,
   (init_fails_fast_validation optsNoContainer).2.2.1 rfl,
   (init_fails_fast_validation optsZeroWidth).2.2.2.1 rfl,
   (init_fails_fast_validation optsBadLogger).2.2.2.2 rfl rfl⟩

end Peaks
